import Mathlib

/-!
# Verification of the B.O.B.E.R. drone controller (`codeS3.py`)

Shallow embedding of the MSP protocol client (`MSPController`), the SBUS
transmitter (`SBUSTransmitter`), the two-stage collision detector
(`TwoStageCollisionDetector`) and the SBUS control loop
(`sbus_control_loop`), together with proofs about the spec's claims.

Python machine integers are embedded as `Nat`/`Int` (Python integers are
unbounded; byte extraction is made explicit with `% 256` / `&&& 255`).
Serial I/O is embedded by explicit transcripts (lists of frames written)
and explicit byte streams / response oracles for reads.
-/

namespace Bober

/-! ## MSP protocol client (`MSPController`) -/

/-- Checksum of `MSPController.send_command`: starts from `size ^ cmd` and
XOR-folds the payload bytes over it. -/
def mspChecksum (cmd : ℕ) (data : List ℕ) : ℕ :=
  data.foldl (fun acc b => acc ^^^ b) (data.length ^^^ cmd)

/-- The request frame built by `MSPController.send_command` and written to
the UART: `'$' 'M' '<' size cmd data... checksum` (36, 77, 60 are the
ASCII codes of `$`, `M`, `<`). -/
def sendCommand (cmd : ℕ) (data : List ℕ) : List ℕ :=
  [36, 77, 60, data.length, cmd] ++ data ++ [mspChecksum cmd data]

/-- Modelled from the spec: a receiver that re-computes
`size XOR cmd XOR fold(payload, XOR)` over the declared payload of a
request frame and accepts the frame iff the final checksum byte matches.
(The repository contains no receiver; the flight controller is external.) -/
def receiverAccepts (frame : List ℕ) : Bool :=
  match frame with
  | d :: m :: _ :: size :: cmd :: rest =>
    d == 36 && m == 77 && rest.length == size + 1 &&
      rest.getLast? == some ((rest.take size).foldl (fun acc b => acc ^^^ b) (size ^^^ cmd))
  | _ => false

/-- Folding XOR from an arbitrary start value factors through the fold from 0. -/
theorem xor_foldl_factor (l : List ℕ) (a : ℕ) :
    l.foldl (fun acc b => acc ^^^ b) a = a ^^^ l.foldl (fun acc b => acc ^^^ b) 0 := by
  induction l generalizing a with
  | nil => simp
  | cons b l ih =>
    simp only [List.foldl_cons]
    rw [ih (a ^^^ b), ih (0 ^^^ b), Nat.zero_xor, Nat.xor_assoc]

/-- **C6.** For every command byte `cmd` and byte payload, the request frame
built by `send_command` has the layout `'$','M','<',size,cmd,payload,checksum`
with `size` the payload length and the checksum byte equal to
`size XOR cmd XOR fold(payload, XOR)`; a receiver recomputing this formula
accepts every frame the client builds. -/
theorem msp_frame_layout_checksum (cmd : ℕ) (payload : List ℕ)
    (hcmd : cmd < 256) (hbytes : ∀ b ∈ payload, b < 256) (hsize : payload.length < 256) :
    sendCommand cmd payload =
      [36, 77, 60, payload.length, cmd] ++ payload ++
        [payload.length ^^^ cmd ^^^ payload.foldl (fun acc b => acc ^^^ b) 0] ∧
    receiverAccepts (sendCommand cmd payload) = true := by
  constructor
  · simp only [sendCommand, mspChecksum, xor_foldl_factor payload (payload.length ^^^ cmd),
      Nat.xor_assoc]
  · simp only [receiverAccepts, sendCommand, List.cons_append, List.nil_append]
    have htake : (payload ++ [mspChecksum cmd payload]).take payload.length = payload :=
      List.take_left _ _
    have hlast : (payload ++ [mspChecksum cmd payload]).getLast? = some (mspChecksum cmd payload) :=
      List.getLast?_concat _
    simp [htake, hlast, mspChecksum]

/-- Witness for `msp_frame_layout_checksum` at `cmd = 209`, `payload = [1, 2, 3]`. -/
theorem msp_frame_layout_checksum_witness :
    sendCommand 209 [1, 2, 3] =
      [36, 77, 60, List.length [1, 2, 3], 209] ++ [1, 2, 3] ++
        [List.length [1, 2, 3] ^^^ 209 ^^^ List.foldl (fun acc b => acc ^^^ b) 0 [1, 2, 3]] ∧
    receiverAccepts (sendCommand 209 [1, 2, 3]) = true :=
  msp_frame_layout_checksum 209 [1, 2, 3] (by decide) (by decide) (by decide)

/-! ## Waypoint mission upload (`MSPController.upload_waypoint_mission`) -/

/-- Little-endian byte decomposition of a natural number into `n` bytes
(used to model `struct.pack`'s little-endian integer fields). -/
def leBytesNat : ℕ → ℕ → List ℕ
  | 0, _ => []
  | n + 1, x => x % 256 :: leBytesNat n (x / 256)

/-- `struct.pack('<i', x)`: 4-byte little-endian two's-complement encoding. -/
def int32Bytes (x : ℤ) : List ℕ := leBytesNat 4 (x % 2 ^ 32).toNat

/-- `struct.pack('<h', x)`: 2-byte little-endian two's-complement encoding. -/
def int16Bytes (x : ℤ) : List ℕ := leBytesNat 2 (x % 2 ^ 16).toNat

/-- Payload of `MSPController.upload_waypoint`:
`struct.pack('<BB iii hhh B', wp_number, waypoint_type, lat, lon, alt*100, 0, 0, 0, 0)`. -/
def waypointPayload (wpNumber wpType : ℕ) (lat lon alt : ℤ) : List ℕ :=
  [wpNumber, wpType] ++ int32Bytes lat ++ int32Bytes lon ++ int32Bytes (alt * 100) ++
    int16Bytes 0 ++ int16Bytes 0 ++ int16Bytes 0 ++ [0]

/-- The MSP_SET_WP (209) request frame sent by `upload_waypoint`. -/
def setWpFrame (wpNumber : ℕ) (lat lon alt : ℤ) (wpType : ℕ) : List ℕ :=
  sendCommand 209 (waypointPayload wpNumber wpType lat lon alt)

/-- The MSP_WP_MISSION_SAVE (46) request frame (empty payload). -/
def missionSaveFrame : List ℕ := sendCommand 46 []

/-- `MSPController.upload_waypoint`: sends one MSP_SET_WP frame, then reads
one response.  `gotResponse` models whether `read_response` returned a frame
(instead of timing out with `None`); the function's result is
`response is not None`.  Returns (success, frame written). -/
def uploadWaypoint (wpNumber : ℕ) (lat lon alt : ℤ) (wpType : ℕ) (gotResponse : Bool) :
    Bool × List ℕ :=
  (gotResponse, setWpFrame wpNumber lat lon alt wpType)

/-- A drop location as received from the web layer: `{lat, lon, alt}` with
`alt` optional (`drop.get('alt', 50)`).  The source computes with Python
floats; `ℚ` is used here, exact for all values appearing in the claims. -/
structure Drop where
  lat : ℚ
  lon : ℚ
  alt : Option ℚ

/-- Python `int(q)`: truncation toward zero. -/
def pyInt (q : ℚ) : ℤ := if 0 ≤ q then ⌊q⌋ else ⌈q⌉

/-- `int(drop['lat'] * 1e7)` -/
def dropLat (d : Drop) : ℤ := pyInt (d.lat * 10000000)

/-- `int(drop['lon'] * 1e7)` -/
def dropLon (d : Drop) : ℤ := pyInt (d.lon * 10000000)

/-- `int(drop.get('alt', 50))` -/
def dropAlt (d : Drop) : ℤ := pyInt (d.alt.getD 50)

/-- `MSPController.upload_waypoint_mission`.  `responses i` models whether the
`i`-th `read_response` call of the transaction returns a frame (rather than
timing out).  Result: (returned boolean, transcript of frames written, in
order).  Mirrors the source exactly: the boolean result of every
`upload_waypoint` call is discarded, and no response is read after the
mission-save command; with well-formed drops no exception is raised, so the
`except` branch (which would return `False`) is unreachable. -/
def uploadWaypointMission (drops : List Drop) (responses : ℕ → Bool) :
    Bool × List (List ℕ) :=
  if drops.length = 0 then (false, [])
  else
    -- waypoint 0: `self.upload_waypoint(0, 0, 0, 0, waypoint_type=1)`, result discarded
    let first := uploadWaypoint 0 0 0 0 1 (responses 0)
    -- one `upload_waypoint(i+1, lat, lon, alt, waypoint_type=2)` per drop, results discarded
    let rest := drops.enum.map fun p =>
      uploadWaypoint (p.1 + 1) (dropLat p.2) (dropLon p.2) (dropAlt p.2) 2 (responses (p.1 + 1))
    -- `self.send_command(self.MSP_WP_MISSION_SAVE)` — no response is read — then `return True`
    (true, first.2 :: rest.map Prod.snd ++ [missionSaveFrame])

/-- **C10.** Called on an empty list of drops, `upload_waypoint_mission`
reports failure and writes no request frame to the serial link, whatever the
flight controller would have answered. -/
theorem upload_empty_mission_no_frames (responses : ℕ → Bool) :
    uploadWaypointMission [] responses = (false, []) := rfl

/-- **C1 (code bug).** With the single drop `{lat := 41, lon := -73, alt := 50}`
and a flight controller that never answers (every `read_response` times out,
modelled by the all-`false` oracle), `upload_waypoint_mission` still returns
`True` and still sends all three frames: the boolean result of
`upload_waypoint` (`response is not None`) is discarded by the caller, and no
response is read after mission-save, so a timed-out step never aborts the
transaction. -/
theorem upload_reports_success_with_all_timeouts :
    (uploadWaypointMission [⟨41, -73, some 50⟩] (fun _ => false)).1 = true ∧
    (uploadWaypointMission [⟨41, -73, some 50⟩] (fun _ => false)).2.length = 3 := by
  constructor <;> rfl

/-- `int(41.0 * 1e7) = 410000000` (exact in binary floating point as well). -/
theorem dropLat_demo : dropLat ⟨41, -73, some 50⟩ = 410000000 := by
  norm_num [dropLat, pyInt]

/-- `int(-73.0 * 1e7) = -730000000` (exact in binary floating point as well). -/
theorem dropLon_demo : dropLon ⟨41, -73, some 50⟩ = -730000000 := by
  norm_num [dropLon, pyInt]
  rw [show (-730000000 : ℚ) = ((-730000000 : ℤ) : ℚ) from by norm_num]
  exact Int.ceil_intCast _

/-- `int(50) = 50`. -/
theorem dropAlt_demo : dropAlt ⟨41, -73, some 50⟩ = 50 := by
  norm_num [dropAlt, pyInt]

/-- **C2 (code bug).** Evaluation of the upload transcript on the single drop
`{lat := 41, lon := -73, alt := 50}`: exactly three frames are written, in
order — waypoint 0 with zero coordinates, then waypoint 1 with action
PositionHold (2), latitude `410000000`, longitude `-730000000` and altitude
`5000` cm, then mission-save — but the action byte of waypoint 0 (frame
offset 6, i.e. payload byte 1) is `1`, which the source's own legend names
"Waypoint", not `3` = RTH as the claim and the source's call-site comment
("Waypoint 0: Home/RTH") require. -/
theorem upload_first_waypoint_action_is_one :
    (uploadWaypointMission [⟨41, -73, some 50⟩] (fun _ => false)).2 =
      [setWpFrame 0 0 0 0 1,
       setWpFrame 1 410000000 (-730000000) 50 2,
       missionSaveFrame] ∧
    ((uploadWaypointMission [⟨41, -73, some 50⟩] (fun _ => false)).2.getD 0 []).getD 5 0 = 0 ∧
    ((uploadWaypointMission [⟨41, -73, some 50⟩] (fun _ => false)).2.getD 0 []).getD 6 0 = 1 ∧
    ((uploadWaypointMission [⟨41, -73, some 50⟩] (fun _ => false)).2.getD 0 []).getD 6 0 ≠ 3 ∧
    ((uploadWaypointMission [⟨41, -73, some 50⟩] (fun _ => false)).2.getD 1 []).getD 6 0 = 2 ∧
    (((uploadWaypointMission [⟨41, -73, some 50⟩] (fun _ => false)).2.getD 1 []).drop 7).take 4 =
      int32Bytes 410000000 ∧
    (((uploadWaypointMission [⟨41, -73, some 50⟩] (fun _ => false)).2.getD 1 []).drop 11).take 4 =
      int32Bytes (-730000000) ∧
    (((uploadWaypointMission [⟨41, -73, some 50⟩] (fun _ => false)).2.getD 1 []).drop 15).take 4 =
      int32Bytes 5000 := by
  have htr : (uploadWaypointMission [⟨41, -73, some 50⟩] (fun _ => false)).2 =
      [setWpFrame 0 0 0 0 1, setWpFrame 1 410000000 (-730000000) 50 2, missionSaveFrame] := by
    simp [uploadWaypointMission, uploadWaypoint, List.enum, dropLat_demo, dropLon_demo,
      dropAlt_demo]
  rw [htr]
  refine ⟨rfl, by decide, by decide, by decide, by decide, ?_, ?_, ?_⟩ <;> decide

/-! ## `MSPController.read_response`

The UART input is modelled as a list of chunks: `stream.get i` is the block
of bytes found in `uart.in_waiting` at the `i`-th iteration of the polling
loop (an empty chunk stands for an iteration with no bytes waiting, which
the source skips without checking the buffer).  `fuel` is the number of
loop iterations the `timeout` allows. -/

/-- The completeness check of `read_response`: once at least 6 bytes are
buffered and the header is `'$' 'M' '>'`, a frame whose declared size has
fully arrived yields the payload `buffer[5:5+size]` (the checksum byte is
never verified). -/
def tryParseResponse (buffer : List ℕ) : Option (List ℕ) :=
  if 6 ≤ buffer.length then
    if buffer.getD 0 0 = 36 ∧ buffer.getD 1 0 = 77 ∧ buffer.getD 2 0 = 62 then
      let size := buffer.getD 3 0
      if 6 + size ≤ buffer.length then some ((buffer.drop 5).take size) else none
    else none
  else none

/-- The polling loop of `read_response`, with its local `buffer` made an
explicit argument.  Returns the result and the part of the UART stream the
call did not drain. -/
def readResponseAux : List ℕ → ℕ → List (List ℕ) → Option (List ℕ) × List (List ℕ)
  | _, 0, stream => (none, stream)
  | _, _ + 1, [] => (none, [])
  | buffer, fuel + 1, chunk :: rest =>
    let buffer2 := buffer ++ chunk
    match tryParseResponse buffer2 with
    | some payload => (some payload, rest)
    | none => readResponseAux buffer2 fuel rest

/-- `MSPController.read_response`: every call starts from a fresh, empty
local `buffer = bytearray()`. -/
def readResponse (fuel : ℕ) (stream : List (List ℕ)) : Option (List ℕ) × List (List ℕ) :=
  readResponseAux [] fuel stream

/-- **C4 (counterexample).** The bytes a timed-out `read_response` call
accumulated are NOT available to the next call.  Concretely: the first 6
bytes of a size-2 response (`$M>` 2 101 7) arrive during the first call,
which times out (the frame needs 8 bytes) and returns `None`; its local
buffer, holding those 6 bytes, is discarded.  The next call, receiving the
remaining bytes `[8, 9]`, also returns `None` — whereas continuing with the
accumulated buffer, as the claim asserts, would have completed the frame
and returned the payload `[7, 8]`. -/
theorem read_response_discards_buffer_cex :
    (readResponse 3 [[36, 77, 62, 2, 101, 7]]).1 = none ∧
    (readResponse 3 [[36, 77, 62, 2, 101, 7]]).2 = [] ∧
    (readResponse 3 [[8, 9]]).1 = none ∧
    (readResponseAux [36, 77, 62, 2, 101, 7] 3 [[8, 9]]).1 = some [7, 8] := by
  refine ⟨?_, ?_, ?_, ?_⟩ <;> decide

/-- A `read_response` call never drops undrained chunks: whatever it leaves
behind is a suffix of the incoming stream. -/
theorem readResponseAux_suffix (buffer : List ℕ) (fuel : ℕ) (stream : List (List ℕ)) :
    (readResponseAux buffer fuel stream).2 <:+ stream := by
  induction fuel generalizing buffer stream with
  | zero => exact List.suffix_refl _
  | succ fuel ih =>
    cases stream with
    | nil => exact List.nil_suffix
    | cons chunk rest =>
      simp only [readResponseAux]
      cases tryParseResponse (buffer ++ chunk) with
      | some payload => exact List.suffix_cons chunk rest
      | none => exact (ih _ rest).trans (List.suffix_cons chunk rest)

/-- **C4 (amended).** When `read_response` times out, the bytes
it accumulated are discarded together with its local buffer (each call
starts from `bytearray()`); only bytes never drained from the serial link
remain for the next attempt — the link is not purged between attempts
(`(readResponse fuel s).2` is a suffix of `s`).  In particular, on the
concrete split stream of the counterexample the retry returns `None`
although all 8 bytes of a well-formed response arrived, while a single call
seeing all 8 bytes returns the payload `[7, 8]`. -/
theorem read_response_leftover_amended :
    (∀ (fuel : ℕ) (stream : List (List ℕ)), (readResponse fuel stream).2 <:+ stream) ∧
    (readResponse 3 [[8, 9]]).1 = none ∧
    (readResponse 3 [[36, 77, 62, 2, 101, 7], [8, 9]]).1 = some [7, 8] := by
  refine ⟨fun fuel stream => readResponseAux_suffix [] fuel stream, by decide, by decide⟩

/-! ## SBUS transmitter (`SBUSTransmitter`) -/

/-- The clamp of `SBUSTransmitter.set_channel`: `max(172, min(1811, value))`.
The value is a Python integer (`ℤ`); the result is always in `[172, 1811]`,
so it is stored as a `ℕ`. -/
def clampChannel (v : ℤ) : ℕ := (max 172 (min 1811 v)).toNat

/-- State of an `SBUSTransmitter`: its 16-entry channel list. -/
structure SBUSTransmitter where
  channels : List ℕ

/-- `SBUSTransmitter.__init__`: `self.channels = [992] * 16`. -/
def SBUSTransmitter.init : SBUSTransmitter := ⟨List.replicate 16 992⟩

/-- `SBUSTransmitter.set_channel`: guarded by `0 <= channel < 16` (the lower
bound is automatic for `ℕ`), stores the clamped value. -/
def setChannel (s : SBUSTransmitter) (channel : ℕ) (v : ℤ) : SBUSTransmitter :=
  if channel < 16 then ⟨s.channels.set channel (clampChannel v)⟩ else s

/-- The accumulated `bit_string` of `SBUSTransmitter._pack_channels`:
`bit_string |= (channel & 0x7FF) << (i * 11)` for each channel, starting
from index `i`. -/
def packBits : List ℕ → ℕ → ℕ
  | [], _ => 0
  | c :: rest, i => ((c &&& 2047) <<< (i * 11)) ||| packBits rest (i + 1)

/-- `SBUSTransmitter._pack_channels`: the 22-byte payload,
`packed[i] = (bit_string >> (i * 8)) & 0xFF`. -/
def packChannels (chs : List ℕ) : List ℕ :=
  (List.range 22).map fun i => (packBits chs 0 >>> (i * 8)) &&& 255

/-- `SBUSTransmitter.build_packet`: `[0x0F] ++ payload ++ [0x00, 0x00]`. -/
def buildPacket (s : SBUSTransmitter) : List ℕ :=
  15 :: packChannels s.channels ++ [0, 0]

/-- `clampChannel` always lands in `[172, 1811]`. -/
theorem clampChannel_mem (v : ℤ) : 172 ≤ clampChannel v ∧ clampChannel v ≤ 1811 := by
  have h1 : (172 : ℤ) ≤ max 172 (min 1811 v) := le_max_left _ _
  have h2 : max 172 (min 1811 v) ≤ 1811 := max_le (by norm_num) (min_le_left _ _)
  unfold clampChannel
  omega

/-- **C9.** The 16 channel values are all within `[172, 1811]` at
initialization; a `set_channel` call with a valid index stores exactly
`clamp(v, 172, 1811)`; and every `set_channel` call (valid index or not)
preserves the in-range invariant. -/
theorem set_channel_clamp_invariant :
    (∀ c ∈ SBUSTransmitter.init.channels, 172 ≤ c ∧ c ≤ 1811) ∧
    (∀ (s : SBUSTransmitter) (ch : ℕ) (v : ℤ), ch < 16 → s.channels.length = 16 →
      (setChannel s ch v).channels.getD ch 0 = clampChannel v) ∧
    (∀ (s : SBUSTransmitter) (ch : ℕ) (v : ℤ),
      (∀ c ∈ s.channels, 172 ≤ c ∧ c ≤ 1811) →
      ∀ c ∈ (setChannel s ch v).channels, 172 ≤ c ∧ c ≤ 1811) := by
  refine ⟨?_, ?_, ?_⟩
  · intro c hc
    have hc992 : c = 992 := by simpa [SBUSTransmitter.init] using hc
    omega
  · intro s ch v hch hlen
    have hlt : ch < (s.channels.set ch (clampChannel v)).length := by
      rw [List.length_set, hlen]; exact hch
    simp only [setChannel, if_pos hch]
    rw [List.getD_eq_getElem _ _ hlt, List.getElem_set_self]
  · intro s ch v hinv c hc
    by_cases hch : ch < 16
    · simp only [setChannel, if_pos hch] at hc
      rcases List.mem_or_eq_of_mem_set hc with h | h
      · exact hinv c h
      · rw [h]; exact clampChannel_mem v
    · simp only [setChannel, if_neg hch] at hc
      exact hinv c hc

/-- Witness for `set_channel_clamp_invariant`: setting channel 0 of a fresh
transmitter to the out-of-range value 5000 stores `clamp(5000) = 1811`, and
the in-range invariant still holds afterwards. -/
theorem set_channel_clamp_invariant_witness :
    (setChannel SBUSTransmitter.init 0 5000).channels.getD 0 0 = clampChannel 5000 ∧
    (∀ c ∈ (setChannel SBUSTransmitter.init 0 5000).channels, 172 ≤ c ∧ c ≤ 1811) :=
  ⟨set_channel_clamp_invariant.2.1 SBUSTransmitter.init 0 5000 (by decide) (by decide),
   set_channel_clamp_invariant.2.2 SBUSTransmitter.init 0 5000
     set_channel_clamp_invariant.1⟩

/-! ## SBUS channel packing round-trip (C5) -/

/-- Value of a little-endian byte list (base-256 positional value), used to
read the 22-byte payload back as one bit string. -/
def natOfBytes : List ℕ → ℕ
  | [] => 0
  | b :: rest => b + 256 * natOfBytes rest

/-- Modelled from the spec: the decoder that reads 16 consecutive 11-bit
little-endian, bit-contiguous fields out of the 22-byte payload.  (The
repository contains no SBUS decoder; the receiver is the autopilot.) -/
def unpackChannels (payload : List ℕ) : List ℕ :=
  (List.range 16).map fun i => (natOfBytes payload >>> (i * 11)) &&& 2047

/-- Base-2048 positional value of the channel list: the arithmetic reading
of `packBits`. -/
def packVal : List ℕ → ℕ
  | [] => 0
  | c :: rest => (c &&& 2047) + 2048 * packVal rest

theorem and_2047_eq_mod (x : ℕ) : x &&& 2047 = x % 2048 := by
  have h := Nat.and_pow_two_sub_one_eq_mod x 11
  norm_num at h
  exact h

theorem and_255_eq_mod (x : ℕ) : x &&& 255 = x % 256 := by
  have h := Nat.and_pow_two_sub_one_eq_mod x 8
  norm_num at h
  exact h

/-- The OR-accumulated `bit_string` of `_pack_channels` equals the base-2048
positional value: the 11-bit fields are disjoint, so the ORs are sums. -/
theorem packBits_eq_packVal (chs : List ℕ) (i : ℕ) :
    packBits chs i = packVal chs * 2 ^ (i * 11) := by
  induction chs generalizing i with
  | nil => simp [packBits, packVal]
  | cons c rest ih =>
    have h1 : c &&& 2047 < 2048 := Nat.lt_succ_of_le Nat.and_le_right
    have h2 : (0 : ℕ) < 2 ^ (i * 11) := pow_pos (by norm_num) _
    have hb : (c &&& 2047) * 2 ^ (i * 11) < 2 ^ (i * 11 + 11) := by
      calc (c &&& 2047) * 2 ^ (i * 11) < 2048 * 2 ^ (i * 11) :=
            mul_lt_mul_of_pos_right h1 h2
        _ = 2 ^ (i * 11 + 11) := by rw [pow_add]; ring
    calc packBits (c :: rest) i
        = (c &&& 2047) * 2 ^ (i * 11) ||| packVal rest * 2 ^ ((i + 1) * 11) := by
          simp only [packBits, ih, Nat.shiftLeft_eq]
      _ = (c &&& 2047) * 2 ^ (i * 11) ||| 2 ^ (i * 11 + 11) * packVal rest := by
          rw [show (i + 1) * 11 = i * 11 + 11 from by ring]; ring_nf
      _ = 2 ^ (i * 11 + 11) * packVal rest ||| (c &&& 2047) * 2 ^ (i * 11) :=
          Nat.lor_comm _ _
      _ = 2 ^ (i * 11 + 11) * packVal rest + (c &&& 2047) * 2 ^ (i * 11) :=
          (Nat.mul_add_lt_is_or hb _).symm
      _ = ((c &&& 2047) + 2048 * packVal rest) * 2 ^ (i * 11) := by rw [pow_add]; ring
      _ = packVal (c :: rest) * 2 ^ (i * 11) := rfl

/-- `packVal` of an `n`-channel list fits in `11 n` bits. -/
theorem packVal_lt (chs : List ℕ) : packVal chs < 2 ^ (chs.length * 11) := by
  induction chs with
  | nil => simp [packVal]
  | cons c rest ih =>
    have h1 : c &&& 2047 < 2048 := Nat.lt_succ_of_le Nat.and_le_right
    have h3 : packVal rest + 1 ≤ 2 ^ (rest.length * 11) := ih
    calc packVal (c :: rest) = (c &&& 2047) + 2048 * packVal rest := rfl
      _ < 2048 * (packVal rest + 1) := by omega
      _ ≤ 2048 * 2 ^ (rest.length * 11) := Nat.mul_le_mul_left _ h3
      _ = 2 ^ ((c :: rest).length * 11) := by
          rw [List.length_cons, show (rest.length + 1) * 11 = rest.length * 11 + 11 from by ring,
            pow_add]
          ring

/-- Extracting the `j`-th 11-bit field of `packVal` recovers the `j`-th
channel modulo 2048. -/
theorem packVal_extract (chs : List ℕ) (j : ℕ) (hj : j < chs.length) :
    (packVal chs >>> (j * 11)) &&& 2047 = chs.getD j 0 % 2048 := by
  induction chs generalizing j with
  | nil => simp at hj
  | cons c rest ih =>
    cases j with
    | zero =>
      simp only [Nat.zero_mul, Nat.shiftRight_zero, and_2047_eq_mod, packVal, List.getD,
        List.get?, Option.getD_some]
      omega
    | succ j =>
      have h1 : c &&& 2047 < 2048 := Nat.lt_succ_of_le Nat.and_le_right
      have hdiv : packVal (c :: rest) / 2048 = packVal rest := by
        show ((c &&& 2047) + 2048 * packVal rest) / 2048 = packVal rest
        rw [Nat.add_mul_div_left _ _ (by norm_num : (0 : ℕ) < 2048),
          Nat.div_eq_of_lt h1, Nat.zero_add]
      rw [show (j + 1) * 11 = 11 + j * 11 from by ring, Nat.shiftRight_add,
        show packVal (c :: rest) >>> 11 = packVal (c :: rest) / 2048 from by
          rw [Nat.shiftRight_eq_div_pow],
        hdiv, List.getD_cons_succ]
      have hj2 : j < rest.length := by
        have h := hj
        rw [List.length_cons] at h
        omega
      exact ih j hj2

/-- Reading back `k` extracted bytes of `n` reconstructs `n % 2^(8k)`. -/
theorem natOfBytes_extract (k : ℕ) : ∀ n : ℕ,
    natOfBytes ((List.range k).map fun i => (n >>> (i * 8)) &&& 255) = n % 2 ^ (k * 8) := by
  induction k with
  | zero => intro n; simp [natOfBytes, Nat.mod_one]
  | succ k ih =>
    intro n
    rw [List.range_succ_eq_map, List.map_cons, List.map_map]
    have hfun : ((fun i => (n >>> (i * 8)) &&& 255) ∘ Nat.succ) =
        fun i => ((n >>> 8) >>> (i * 8)) &&& 255 := by
      funext i
      simp only [Function.comp_apply]
      rw [show Nat.succ i * 8 = 8 + i * 8 from by omega, Nat.shiftRight_add]
    rw [hfun]
    simp only [natOfBytes]
    rw [ih (n >>> 8)]
    rw [show n >>> (0 * 8) = n from by simp,
      show n >>> 8 = n / 256 from by rw [Nat.shiftRight_eq_div_pow],
      and_255_eq_mod,
      show (k + 1) * 8 = 8 + k * 8 from by ring, pow_add,
      show (2 : ℕ) ^ 8 = 256 from by norm_num]
    exact (Nat.mod_mul).symm

/-- **C5.** Round-trip: for every vector of 16 channel values in
`[172, 1811]`, reading 16 consecutive 11-bit little-endian bit-contiguous
fields out of the 22-byte payload produced by `_pack_channels` recovers
exactly those 16 values. -/
theorem sbus_pack_unpack_roundtrip (chs : List ℕ) (hlen : chs.length = 16)
    (hrange : ∀ c ∈ chs, 172 ≤ c ∧ c ≤ 1811) :
    unpackChannels (packChannels chs) = chs := by
  have h0 : packBits chs 0 = packVal chs := by
    have h := packBits_eq_packVal chs 0
    simpa using h
  have hval : natOfBytes (packChannels chs) = packVal chs := by
    rw [packChannels]
    simp only [h0]
    rw [natOfBytes_extract 22 (packVal chs)]
    refine Nat.mod_eq_of_lt (lt_of_lt_of_le (packVal_lt chs) ?_)
    rw [hlen]
  apply List.ext_getElem
  · simp [unpackChannels, hlen]
  · intro i h1 h2
    simp only [unpackChannels, List.getElem_map, List.getElem_range]
    rw [hval, packVal_extract chs i (by omega)]
    have hmem : chs[i] ∈ chs := List.getElem_mem _
    have hlt : chs[i] < 2048 := by have h := (hrange _ hmem).2; omega
    rw [List.getD_eq_getElem chs 0 (by omega)]
    exact Nat.mod_eq_of_lt hlt

/-- Witness for `sbus_pack_unpack_roundtrip` on the all-centered channel
vector `[992] * 16`. -/
theorem sbus_pack_unpack_roundtrip_witness :
    (List.replicate 16 992).length = 16 ∧
    unpackChannels (packChannels (List.replicate 16 992)) = List.replicate 16 992 :=
  ⟨by decide, sbus_pack_unpack_roundtrip (List.replicate 16 992) (by decide) (by decide)⟩

/-! ## SBUS control loop (`sbus_control_loop`)

One iteration of the `while True` loop is a pure step function over the
transmitter state and the `last_collision_time` variable.  The globals read
during the tick (`collision_imminent`, `collision_direction`,
`collision_velocity`, `mission_active`) and the value of `time.monotonic()`
are the tick's input.  Times are `ℚ` (exact, totally ordered). -/

/-- Input observed by one iteration of `sbus_control_loop`. -/
structure TickInput where
  imminent : Bool
  direction : String
  velocity : Option String
  missionActive : Bool
  now : ℚ

/-- The `intensity` chain of `sbus_control_loop`: 400 / 300 / 200 for
critical / fast / medium, else 150. -/
def intensityOf (velocity : Option String) : ℤ :=
  if velocity = some "critical" then 400
  else if velocity = some "fast" then 300
  else if velocity = some "medium" then 200
  else 150

/-- One iteration of the `while True` body of `sbus_control_loop` (up to the
`sbus.send_packet()` transmission, which does not change state).  Returns
the updated transmitter and `last_collision_time`. -/
def sbusStep (sbus : SBUSTransmitter) (lastCollisionTime : ℚ) (inp : TickInput) :
    SBUSTransmitter × ℚ :=
  if inp.imminent then
    let intensity := intensityOf inp.velocity
    let sbus2 :=
      if inp.direction = "right" then setChannel sbus 0 (992 - intensity)
      else if inp.direction = "left" then setChannel sbus 0 (992 + intensity)
      else if inp.direction = "above" then setChannel sbus 2 (992 - intensity)
      else if inp.direction = "below" then setChannel sbus 2 (992 + intensity)
      else setChannel sbus 1 (992 - intensity)
    (setChannel sbus2 4 172, inp.now)
  else
    if inp.now - lastCollisionTime > 2 then
      let sbus2 := setChannel (setChannel (setChannel sbus 0 992) 1 992) 2 992
      (setChannel sbus2 4 (if inp.missionActive then 1811 else 992), lastCollisionTime)
    else (sbus, lastCollisionTime)

/-- Iterating `sbusStep` over a sequence of ticks. -/
def sbusRun (sbus : SBUSTransmitter) (lastCollisionTime : ℚ) (ticks : List TickInput) :
    SBUSTransmitter × ℚ :=
  ticks.foldl (fun st inp => sbusStep st.1 st.2 inp) (sbus, lastCollisionTime)

/-- **C3.** (a) On any tick that observes `collision_imminent` true, the
Avoiding outputs are applied at once: the mode channel (4) is forced to 172
and `last_collision_time` is refreshed to the tick's clock — whatever the
previous state was (the PassThrough→Avoiding transition happens on the
first such tick).  (b) Hysteresis: starting from any state whose
`last_collision_time` is `t` (as left by a tick that saw the flag true at
time `t`), a run of ticks that all observe the flag false and whose clocks
stay within `t + 2.0` seconds leaves the state — all 16 channels and the
timer — completely unchanged: roll/pitch/throttle are not restored to 992
and the mode channel is not handed back before 2.0 s of continuous false. -/
theorem sbus_hysteresis_and_immediate_override
    (sbus : SBUSTransmitter) (t : ℚ) (inp : TickInput) (ticks : List TickInput) :
    (inp.imminent = true → sbus.channels.length = 16 →
      (sbusStep sbus t inp).1.channels.getD 4 0 = 172 ∧ (sbusStep sbus t inp).2 = inp.now) ∧
    ((∀ i ∈ ticks, i.imminent = false ∧ i.now ≤ t + 2) → sbusRun sbus t ticks = (sbus, t)) := by
  constructor
  · intro himm hlen
    simp only [sbusStep, himm, if_pos]
    constructor
    · set sbus2 :=
        if inp.direction = "right" then setChannel sbus 0 (992 - intensityOf inp.velocity)
        else if inp.direction = "left" then setChannel sbus 0 (992 + intensityOf inp.velocity)
        else if inp.direction = "above" then setChannel sbus 2 (992 - intensityOf inp.velocity)
        else if inp.direction = "below" then setChannel sbus 2 (992 + intensityOf inp.velocity)
        else setChannel sbus 1 (992 - intensityOf inp.velocity) with hsbus2
      have hlen2 : sbus2.channels.length = 16 := by
        rw [hsbus2]
        split_ifs <;> simp [setChannel, hlen]
      have h172 : clampChannel 172 = 172 := by decide
      rw [← h172]
      exact set_channel_clamp_invariant.2.1 sbus2 4 172 (by norm_num) hlen2
    · trivial
  · intro hticks
    induction ticks generalizing sbus t with
    | nil => rfl
    | cons i rest ih =>
      have hi := hticks i (List.mem_cons_self i rest)
      have hstep : sbusStep sbus t i = (sbus, t) := by
        simp only [sbusStep, hi.1, Bool.false_eq_true, if_neg, if_false]
        rw [if_neg (by linarith [hi.2])]
      show sbusRun sbus t (i :: rest) = (sbus, t)
      rw [sbusRun, List.foldl_cons]
      show sbusRun (sbusStep sbus t i).1 (sbusStep sbus t i).2 rest = (sbus, t)
      rw [hstep]
      exact ih sbus t (fun j hj => hticks j (List.mem_cons_of_mem i hj))

/-- Witness for `sbus_hysteresis_and_immediate_override`: a fresh transmitter
hit by an imminent-collision tick at time 5 forces channel 4 to 172; a
subsequent flag-false tick at time 6 (only 1 s of continuous false) changes
nothing. -/
theorem sbus_hysteresis_witness :
    (sbusStep SBUSTransmitter.init 5 ⟨true, "front", none, false, 5⟩).1.channels.getD 4 0 = 172 ∧
    sbusRun SBUSTransmitter.init 5 [⟨false, "front", none, false, 6⟩] =
      (SBUSTransmitter.init, 5) :=
  ⟨((sbus_hysteresis_and_immediate_override SBUSTransmitter.init 5
      ⟨true, "front", none, false, 5⟩ []).1 rfl (by decide)).1,
   (sbus_hysteresis_and_immediate_override SBUSTransmitter.init 5
      ⟨true, "front", none, false, 5⟩ [⟨false, "front", none, false, 6⟩]).2
     (by intro i hi; rw [List.mem_singleton] at hi; subst hi; exact ⟨rfl, by norm_num⟩)⟩

/-! ## Two-stage collision detector (`TwoStageCollisionDetector`)

Frames are byte lists (RGB565, two bytes per pixel).  `frame.getD i 0`
models `frame[i]` (all in-range in the source's use).  Python
`range(a, b, step)` is `pyRange a b step`. -/

/-- Python `range(a, b, step)` for `step > 0`. -/
def pyRange (a b step : ℕ) : List ℕ := List.range' a ((b - a + step - 1) / step) step

/-- The inner `x` loop of `fast_edge_detection` for one row; the
`if idx + width * 2 >= len(frame): break` exits the row early. -/
def fastEdgeRow (frame : List ℕ) (width rowStart : ℕ) : List ℕ → ℕ
  | [] => 0
  | x :: xs =>
    let idx := rowStart + x * 2
    if frame.length ≤ idx + width * 2 then 0
    else
      let currentR := frame.getD idx 0 >>> 3
      let rightR := frame.getD (idx + 2) 0 >>> 3
      let belowR := frame.getD (idx + width * 2) 0 >>> 3
      let hEdge := ((currentR : ℤ) - (rightR : ℤ)).natAbs
      let vEdge := ((currentR : ℤ) - (belowR : ℤ)).natAbs
      (if 3 < hEdge ∨ 3 < vEdge then 1 else 0) + fastEdgeRow frame width rowStart xs

/-- Stage 1, `fast_edge_detection`: counts red-channel edges over the
central sub-window (outer fifth excluded each side), stride 2. -/
def fastEdgeDetection (frame : List ℕ) (width height : ℕ) : ℕ :=
  (pyRange (height / 5) (4 * height / 5 - 1) 2).foldl
    (fun acc y =>
      acc + fastEdgeRow frame width (y * width * 2) (pyRange (width / 5) (4 * width / 5 - 1) 2))
    0

/-- `rgb565_to_gray`: per pixel, decode 5/6/5 red/green/blue and apply the
luma weighting `(r*19 + g*38 + b*7) >> 6`.  (The source's loop requires an
even-length frame; this map form agrees with it there.) -/
def rgb565ToGray (frame : List ℕ) : List ℕ :=
  (List.range (frame.length / 2)).map fun j =>
    let b0 := frame.getD (2 * j) 0
    let b1 := frame.getD (2 * j + 1) 0
    let r := (b0 >>> 3) &&& 31
    let g := ((b0 &&& 7) <<< 3) ||| ((b1 >>> 5) &&& 7)
    let b := b1 &&& 31
    (r * 19 + g * 38 + b * 7) >>> 6

/-- The five directional zone accumulators of `analyze_direction_vector`. -/
structure Zones where
  left : ℕ
  center : ℕ
  right : ℕ
  top : ℕ
  bottom : ℕ
deriving DecidableEq

/-- The inner `x` loop of `analyze_direction_vector` for one row (with its
early `break` when `idx + width >= len(gray)`). -/
def zoneRow (gray : List ℕ) (width height y : ℕ) : List ℕ → Zones → Zones
  | [], z => z
  | x :: xs, z =>
    let idx := y * width + x
    if gray.length ≤ idx + width then z
    else
      let hEdge := ((gray.getD idx 0 : ℤ) - (gray.getD (idx + 1) 0 : ℤ)).natAbs
      let vEdge := ((gray.getD idx 0 : ℤ) - (gray.getD (idx + width) 0 : ℤ)).natAbs
      let s := hEdge + vEdge
      let z2 :=
        if 20 < s then
          let zh :=
            if x < width / 3 then { z with left := z.left + s }
            else if 2 * width / 3 < x then { z with right := z.right + s }
            else { z with center := z.center + s }
          if y < height / 3 then { zh with top := zh.top + s }
          else if 2 * height / 3 < y then { zh with bottom := zh.bottom + s }
          else zh
        else z
      zoneRow gray width height y xs z2

/-- The accumulation phase of `analyze_direction_vector`. -/
def accumulateZones (gray : List ℕ) (width height : ℕ) : Zones :=
  (List.range (height - 1)).foldl
    (fun z y => zoneRow gray width height y (List.range (width - 1)) z)
    ⟨0, 0, 0, 0, 0⟩

/-- The decision phase of `analyze_direction_vector` (from
`zones['center'] *= 2` onward).  The source compares against the Python
floats `1.3` and `1.5`; they are modelled as exact rationals, which agrees
with float64 arithmetic for every comparison evaluated in this file. -/
def resolveDirection (z : Zones) : Option String × ℕ :=
  let center2 := z.center * 2
  let total := z.left + center2 + z.right
  if total < 1000 then (none, 0)
  else
    let maxH := max z.left (max center2 z.right)
    let direction :=
      if maxH = z.left ∧ (z.left : ℚ) > (center2 : ℚ) * 1.3 then "left"
      else if maxH = z.right ∧ (z.right : ℚ) > (center2 : ℚ) * 1.3 then "right"
      else if (z.top : ℚ) > (z.bottom : ℚ) * 1.5 then "above"
      else if (z.bottom : ℚ) > (z.top : ℚ) * 1.5 then "below"
      else "front"
    (some direction, min (total / 100) 150)

/-- Stage 2, `analyze_direction_vector`: accumulate zones, then resolve. -/
def analyzeDirectionVector (gray : List ℕ) (width height : ℕ) : Option String × ℕ :=
  resolveDirection (accumulateZones gray width height)

/-- `estimate_velocity`: mean absolute grayscale difference over the central
third (float division modelled as exact rational division). -/
def estimateVelocity (currentGray prevGray : List ℕ) (width height : ℕ) : String :=
  let acc :=
    (pyRange (height / 3) (2 * height / 3) 1).foldl
      (fun acc y =>
        (pyRange (width / 3) (2 * width / 3) 1).foldl
          (fun acc2 x =>
            let idx := y * width + x
            if idx < currentGray.length ∧ idx < prevGray.length then
              (acc2.1 + ((currentGray.getD idx 0 : ℤ) - (prevGray.getD idx 0 : ℤ)).natAbs,
               acc2.2 + 1)
            else acc2)
          acc)
      ((0, 0) : ℕ × ℕ)
  let avgChange : ℚ := if 0 < acc.2 then (acc.1 : ℚ) / (acc.2 : ℚ) else 0
  if avgChange > 15 then "critical"
  else if avgChange > 10 then "fast"
  else if avgChange > 5 then "medium"
  else "slow"

/-- Cross-call state of `TwoStageCollisionDetector`, plus the ghost flag
`ranStage2` recording whether the most recent call reached stage 2 (it
corresponds to no Python variable and influences nothing). -/
structure DetectorState where
  prevFrame : Option (List ℕ)
  prevGray : Option (List ℕ)
  ranStage2 : Bool

/-- `TwoStageCollisionDetector.detect_collision` with the acquired frame as
input (`none` models `camera.take(1)` returning nothing; `[]` is also
falsy in Python).  Thresholds: `edge_threshold = 800`,
`collision_threshold = 60`; the frame is analysed at 160 x 120. -/
def detectCollision (s : DetectorState) (frame : Option (List ℕ)) :
    (Bool × Option String × Option String) × DetectorState :=
  match frame with
  | none => ((false, none, none), { s with ranStage2 := false })
  | some f =>
    if f = [] then ((false, none, none), { s with ranStage2 := false })
    else if fastEdgeDetection f 160 120 < 800 then
      -- stage 1 reports quiet: only `self.prev_frame = frame` is executed
      ((false, none, none), { s with prevFrame := some f, ranStage2 := false })
    else
      let gray := rgb565ToGray f
      let dc := analyzeDirectionVector gray 160 120
      let velocity := s.prevGray.map fun pg => estimateVelocity gray pg 160 120
      let s2 : DetectorState := ⟨some f, some gray, true⟩
      if 60 < dc.2 then ((true, dc.1, velocity), s2)
      else ((false, none, none), s2)

/-- **C7 (counterexample).** On a sub-threshold call, the grayscale history
slot is NOT updated to the just-acquired frame's data: starting from
`prev_gray = [5]` and acquiring the quiet frame `[7, 0]`, the call leaves
`prev_gray = [5]`, which differs from the new frame's grayscale `[33]` —
the stage-1 early return executes only `self.prev_frame = frame`. -/
theorem detect_prev_gray_not_updated_cex :
    (detectCollision ⟨none, some [5], false⟩ (some [7, 0])).2.prevGray = some [5] ∧
    some [5] ≠ some (rgb565ToGray [7, 0]) := by
  exact ⟨by decide, by decide⟩

/-- **C7 (amended).** Two successive `detect()` calls on non-empty frames
whose stage-1 edge counts are below 800 both return `(false, none, none)`,
stage 2 is not run on either call, and on each call the previous-frame slot
is updated to the just-acquired frame while the previous-grayscale slot is
left unchanged. -/
theorem detect_subthreshold_amended (s : DetectorState) (f1 f2 : List ℕ)
    (h1ne : f1 ≠ []) (h2ne : f2 ≠ [])
    (h1 : fastEdgeDetection f1 160 120 < 800) (h2 : fastEdgeDetection f2 160 120 < 800) :
    (detectCollision s (some f1)).1 = (false, none, none) ∧
    (detectCollision (detectCollision s (some f1)).2 (some f2)).1 = (false, none, none) ∧
    (detectCollision s (some f1)).2.ranStage2 = false ∧
    (detectCollision (detectCollision s (some f1)).2 (some f2)).2.ranStage2 = false ∧
    (detectCollision s (some f1)).2.prevFrame = some f1 ∧
    (detectCollision (detectCollision s (some f1)).2 (some f2)).2.prevFrame = some f2 ∧
    (detectCollision s (some f1)).2.prevGray = s.prevGray ∧
    (detectCollision (detectCollision s (some f1)).2 (some f2)).2.prevGray = s.prevGray := by
  have e1 : detectCollision s (some f1) =
      ((false, none, none), { s with prevFrame := some f1, ranStage2 := false }) := by
    simp [detectCollision, h1ne, h1]
  have e2 : detectCollision { s with prevFrame := some f1, ranStage2 := false } (some f2) =
      ((false, none, none),
        { s with prevFrame := some f2, ranStage2 := false }) := by
    simp [detectCollision, h2ne, h2]
  rw [e1]
  simp [e2]

/-- Witness for `detect_subthreshold_amended` on the quiet frames `[7, 0]`
and `[9, 0]` from history `prev_gray = [5]`. -/
theorem detect_subthreshold_amended_witness :
    (detectCollision ⟨none, some [5], false⟩ (some [7, 0])).1 = (false, none, none) ∧
    (detectCollision (detectCollision ⟨none, some [5], false⟩ (some [7, 0])).2
      (some [9, 0])).2.prevGray = some [5] := by
  have h := detect_subthreshold_amended ⟨none, some [5], false⟩ [7, 0] [9, 0]
    (by decide) (by decide) (by decide) (by decide)
  exact ⟨h.1, h.2.2.2.2.2.2.2⟩

/-- **C8 (counterexample).** With accumulated zone sums left = 130,
center = 100 (pre-doubling), right = 50 (top = bottom = 0), stage 2 does
NOT resolve direction "left": the weighted total is 130 + 200 + 50 = 380,
below the 1000 activity floor, so the analysis returns no direction at all
(and even past that gate, 130 neither is the maximum nor exceeds
1.3 x the doubled center 200). -/
theorem zone_numbers_resolve_none_cex :
    resolveDirection ⟨130, 100, 50, 0, 0⟩ = (none, 0) ∧
    (resolveDirection ⟨130, 100, 50, 0, 0⟩).1 ≠ some "left" := by
  exact ⟨by decide, by decide⟩

/-- **C8 (amended).** With zone sums left = 130, center = 100, right = 50
the analysis reports no direction (total 380 < 1000, confidence 0);
"left" wins only when the weighted total reaches 1000, left is the maximum
zone, and left exceeds 1.3 x the doubled center — e.g. left = 1300,
center = 100, right = 50 resolves to "left" (confidence 15). -/
theorem zone_direction_amended :
    resolveDirection ⟨130, 100, 50, 0, 0⟩ = (none, 0) ∧
    resolveDirection ⟨1300, 100, 50, 0, 0⟩ = (some "left", 15) := by
  exact ⟨by decide, by norm_num [resolveDirection]⟩

end Bober
